import Mathlib

/-!
Shallow embedding of the IP repository of metal-stack/metalstack-apiserver
(pkg/repository/ip.go and pkg/service/ip/admin/ip-service.go), together
with proofs about its Create / Update / Delete / List behaviour.

Conventions of the embedding:
  * Go pointers to scalars become Option.
  * The external IPAM allocator (a connect client) is an oracle passed as a
    function; connect clients surface every failure as a coded connect
    error, so oracle errors always carry a code (ConnErr below).
  * The external datastore is a list of records; its success path is
    modelled (Get by id, Create appends, Update replaces, Delete removes).
  * IP address strings are modelled by the Addr structure (family bit plus
    numeric value); CIDR prefixes by the IPPrefix structure.  The netip
    parsing of well-formed literals and well-formed prefixes always
    succeeds, so the parse-error branches of the Go code are not reachable
    in the model and are omitted.
  * Functions of this repository that are not part of the two source files
    (package metal, package generic, metal-lib tag, package validate) are
    modelled from the spec; each such definition says so in its doc comment.
-/

namespace ApiServer

/-- Modelled from the spec: metal.AddressFamily (pkg/db/metal is not part of
the two source files).  It is a string-typed Go enum with values for v4 and
v6; its zero value (the empty string) is distinct from both, represented
here by the unspecified constructor. -/
inductive AddressFamily where
  | unspecified
  | ipv4
  | ipv6
deriving DecidableEq, Repr

/-- Modelled from the spec: an IP address literal, as produced by
netip.ParseAddr on a well-formed literal: a family bit (v6 or not) and the
numeric value of the address. -/
structure Addr where
  isV6 : Bool
  val : Nat
deriving DecidableEq, Repr

/-- Modelled from the spec: a CIDR prefix of a network, as produced by
netip.ParsePrefix on a well-formed prefix: family bit, base address value
and prefix length. -/
structure IPPrefix where
  isV6 : Bool
  base : Nat
  bits : Nat
deriving DecidableEq, Repr

/-- Bit width of the address family of a prefix. -/
def IPPrefix.width (p : IPPrefix) : Nat := if p.isV6 then 128 else 32

/-- Modelled from the spec: netip containment test pfx.Contains(addr) —
same family and the high (width - bits) bits of the address equal those of
the base. -/
def prefixContains (p : IPPrefix) (a : Addr) : Bool :=
  a.isV6 == p.isV6 && a.val / 2 ^ (p.width - p.bits) == p.base / 2 ^ (p.width - p.bits)

/-- Modelled from the spec: metal.Prefixes.OfFamily — keeps the prefixes of
the given family, in listed order.  The Go switch has cases only for the v4
and v6 constants, so any other family value (in particular the zero value)
matches no prefix. -/
def ofFamily (af : AddressFamily) (ps : List IPPrefix) : List IPPrefix :=
  ps.filter fun p =>
    match af with
    | .ipv4 => !p.isV6
    | .ipv6 => p.isV6
    | .unspecified => false

/-- Modelled from the spec: metal.Network — the fields of pkg/db/metal's
Network that ip.go reads. -/
structure Network where
  id : String
  addressFamilies : List AddressFamily
  prefixes : List IPPrefix
  shared : Bool
  parentNetworkID : String
  projectID : String
deriving DecidableEq, Repr

/-- Modelled from the spec: the project entity; ip.go only reads its id
(p.Meta.Id). -/
structure Project where
  id : String
deriving DecidableEq, Repr

/-- Modelled from the spec: metal.IPType — enum with the Ephemeral and
Static retention kinds. -/
inductive IPType where
  | ephemeral
  | static
deriving DecidableEq, Repr

/-- Wire enum apiv2.IPType, including its UNSPECIFIED value. -/
inductive IPTypeWire where
  | unspecified
  | ephemeral
  | static
deriving DecidableEq, Repr

/-- Wire enum apiv2.IPAddressFamily, including its UNSPECIFIED value. -/
inductive IPAddressFamilyWire where
  | unspecified
  | v4
  | v6
deriving DecidableEq, Repr

/-- Modelled from the spec: metal.IP, the stored address record (pkg/db/metal
is not part of the two source files; fields are those ip.go reads and
writes).  The record id used by the store (metal.IP.GetID) is the address
itself. -/
structure IP where
  allocationUUID : String
  ipAddress : Addr
  parentPrefixCidr : IPPrefix
  name : String
  description : String
  networkID : String
  projectID : String
  type : IPType
  tags : List String
  created : Nat
  changed : Nat
deriving DecidableEq, Repr

/-- Error codes: the connect codes ip.go mentions plus the Conflict and
ResourceExhausted classes of the spec's error taxonomy. -/
inductive Code where
  | invalidArgument
  | permissionDenied
  | notFound
  | alreadyExists
  | conflict
  | resourceExhausted
  | internal
  | unavailable
deriving DecidableEq, Repr

/-- Coded error as surfaced by a connect client or constructed by
connect.NewError / the generic package. -/
structure ConnErr where
  code : Code
  msg : String
deriving DecidableEq, Repr

/-- Go error values seen by this core: a plain fmt.Errorf error, a coded
connect error, or connect.NewError(code, inner) wrapping another error. -/
inductive GoErr where
  | plain (msg : String)
  | conn (e : ConnErr)
  | wrapped (code : Code) (inner : GoErr)
deriving DecidableEq, Repr

/-- Error classification as observed through errors.As / connect.CodeOf: the
code of the outermost connect error, none for a plain error. -/
def errClass : GoErr → Option Code
  | .plain _ => none
  | .conn e => some e.code
  | .wrapped c _ => some c

/-- Modelled from the spec: generic.Conflict from pkg/db/generic produces a
Conflict-class error. -/
def genericConflict (msg : String) : GoErr := .conn ⟨.conflict, msg⟩

/-- Modelled from the spec: generic.NotFound from pkg/db/generic produces a
NotFound-class error. -/
def genericNotFound (msg : String) : GoErr := .conn ⟨.notFound, msg⟩

/-! ## Tags (metal-lib tag package, modelled from the spec) -/

/-- Modelled from the spec: the reserved machine-ownership tag key
(tag.MachineID). -/
def machineIDKey : String := "machine.metal-stack.io/id"

/-- Modelled from the spec: tag.New concatenates key and value with an
equals sign. -/
def tagNew (k v : String) : String := k ++ "=" ++ v

/-- Splits a character list at the first equals sign: key part and, when an
equals sign is present, the value part. -/
def splitEq : List Char → List Char × Option (List Char)
  | [] => ([], none)
  | c :: cs =>
    if c = '=' then ([], some cs)
    else
      let r := splitEq cs
      (c :: r.1, r.2)

/-- Key part of a tag string (everything before the first equals sign; the
whole string when there is none). -/
def tagKey (t : String) : String := String.mk (splitEq t.toList).1

/-- Value part of a tag string (everything after the first equals sign;
empty when there is none). -/
def tagVal (t : String) : String :=
  match (splitEq t.toList).2 with
  | some v => String.mk v
  | none => ""

/-- Modelled from the spec: tag.NewTagMap — key/value map over the tag
strings, last write wins per key, first-occurrence key order. -/
def newTagMap (tags : List String) : List (String × String) :=
  tags.foldl
    (fun m t =>
      let k := tagKey t
      let v := tagVal t
      if m.any (fun kv => kv.1 == k) then
        m.map fun kv => if kv.1 == k then (k, v) else kv
      else m ++ [(k, v)])
    []

/-- Modelled from the spec: TagMap.Value — the value stored under a key,
none when the key is absent. -/
def tagMapValue (m : List (String × String)) (k : String) : Option String :=
  (m.find? fun kv => kv.1 == k).map fun kv => kv.2

/-- Modelled from the spec: TagMap.Slice — the map rendered back to
duplicate-free key=value tag strings. -/
def tagMapSlice (m : List (String × String)) : List String :=
  m.map fun kv => tagNew kv.1 kv.2

/-! ## The IPAM oracle and call traces -/

/-- Calls this core makes against the external IPAM allocator. -/
inductive IpamCall where
  | acquireCall (prefixCidr : IPPrefix) (ip : Option Addr)
  | releaseCall (ip : Addr) (prefixCidr : IPPrefix)
deriving DecidableEq, Repr

/-- Whether an IPAM call is a release. -/
def IpamCall.isRelease : IpamCall → Bool
  | .acquireCall _ _ => false
  | .releaseCall _ _ => true

/-- Oracle for ipam.AcquireIP: given the prefix and the optional specific
address of the request, the allocator answers with an address or a coded
error. -/
def AcquireOracle := IPPrefix → Option Addr → Except ConnErr Addr

/-- Oracle for ipam.ReleaseIP: none on success, a coded error otherwise. -/
def ReleaseOracle := Addr → IPPrefix → Option ConnErr

/-! ## AllocateSpecificIP and AllocateRandomIP (ip.go lines 236-299) -/

/-- Loop body of AllocateSpecificIP over the family-matching prefixes:
skip prefixes not containing the address; on the first containing prefix
call the allocator — AlreadyExists becomes a Conflict error, any other
error is returned as is, success returns the allocator's address and the
prefix.  The second component records the IPAM calls made. -/
def allocSpecificLoop (acquire : AcquireOracle) (specificIP : Addr) :
    List IPPrefix → Except GoErr (Addr × IPPrefix) × List IpamCall
  | [] => (.error (.plain "specific ip not contained in any of the defined prefixes"), [])
  | p :: rest =>
    if !prefixContains p specificIP then
      allocSpecificLoop acquire specificIP rest
    else
      match acquire p (some specificIP) with
      | .error e =>
        if e.code = .alreadyExists then
          (.error (genericConflict "ip already allocated"), [.acquireCall p (some specificIP)])
        else
          (.error (.conn e), [.acquireCall p (some specificIP)])
      | .ok a => (.ok (a, p), [.acquireCall p (some specificIP)])

/-- AllocateSpecificIP: derive the family from the literal (v6 when the
parsed address is v6, v4 otherwise) and run the loop over the network's
prefixes of that family. -/
def allocateSpecificIP (acquire : AcquireOracle) (parent : Network) (specificIP : Addr) :
    Except GoErr (Addr × IPPrefix) × List IpamCall :=
  let af : AddressFamily := if specificIP.isV6 then .ipv6 else .ipv4
  allocSpecificLoop acquire specificIP (ofFamily af parent.prefixes)

/-- Loop body of AllocateRandomIP over the family-matching prefixes: ask the
allocator for any free address; a NotFound error continues with the next
prefix, any other error aborts, success returns the address and the prefix;
when every prefix is exhausted the plain no-ips-left error is returned.
The second component records the IPAM calls made. -/
def allocRandomLoop (acquire : AcquireOracle) :
    List IPPrefix → Except GoErr (Addr × IPPrefix) × List IpamCall
  | [] => (.error (.plain "cannot allocate free ip in ipam, no ips left"), [])
  | p :: rest =>
    match acquire p none with
    | .error e =>
      if e.code = .notFound then
        let r := allocRandomLoop acquire rest
        (r.1, .acquireCall p none :: r.2)
      else
        (.error (.conn e), [.acquireCall p none])
    | .ok a => (.ok (a, p), [.acquireCall p none])

/-- AllocateRandomIP: when the family pointer is non-nil use its value; when
it is nil use the network's single supported family if it has exactly one
and v4 otherwise; then run the loop over the prefixes of that family. -/
def allocateRandomIP (acquire : AcquireOracle) (parent : Network) (af : Option AddressFamily) :
    Except GoErr (Addr × IPPrefix) × List IpamCall :=
  let addressfamily : AddressFamily :=
    match af, parent.addressFamilies with
    | some a, _ => a
    | none, [f] => f
    | none, _ => .ipv4
  allocRandomLoop acquire (ofFamily addressfamily parent.prefixes)

/-! ## Requests and the environment of external collaborators -/

/-- Request shape of apiv2.IPServiceCreateRequest as read by Create; the
optional specific address is the parse result of a well-formed literal. -/
structure IPServiceCreateRequest where
  network : String
  project : String
  name : Option String
  description : Option String
  ip : Option Addr
  tags : List String
  machineId : Option String
  addressFamily : Option IPAddressFamilyWire
  type : Option IPTypeWire
deriving DecidableEq, Repr

/-- Request shape of apiv2.IPServiceUpdateRequest as read by Update; the
record is identified by its address.  Tags is a proto3 repeated field, so an
absent field is indistinguishable from the empty list. -/
structure IPServiceUpdateRequest where
  ip : Addr
  name : Option String
  description : Option String
  type : Option IPTypeWire
  tags : List String
deriving DecidableEq, Repr

/-- External collaborators of the repository: project lookup, scoped network
lookup, the IPAM oracles, and the uuid.NewV7 value of the request. -/
structure Env where
  projectGet : String → Except GoErr Project
  networkGet : String → String → Except GoErr Network
  acquire : AcquireOracle
  release : ReleaseOracle
  newUUID : String

/-- Modelled from the spec: validate.ValidateAddressFamily (pkg/validate is
not part of the two source files) — the Unspecified wire family is rejected,
a concrete family is accepted. -/
def validateAddressFamily : IPAddressFamilyWire → Option String
  | .unspecified => some "addressfamily must not be unspecified"
  | .v4 => none
  | .v6 => none

/-! ## Store operations (success path of the external Store) -/

/-- Store and scope lookup of ip.go's Get: fetch the record by id from the
datastore (NotFound when absent), then require the repository scope to equal
the record's project (reported as NotFound, not PermissionDenied). -/
def getIP (scope : String) (store : List IP) (id : Addr) : Except GoErr IP :=
  match store.find? fun ip => ip.ipAddress == id with
  | none => .error (genericNotFound "ip not found")
  | some ip =>
    if scope ≠ ip.projectID then .error (genericNotFound "ip not found")
    else .ok ip

/-- Success path of Store.Update: replace the record with the given id. -/
def storeUpdate (store : List IP) (id : Addr) (newIP : IP) : List IP :=
  store.map fun x => if x.ipAddress == id then newIP else x

/-- Success path of Store.Delete: remove the record with the given id. -/
def storeDelete (store : List IP) (id : Addr) : List IP :=
  store.filter fun x => !(x.ipAddress == id)

/-! ## Create (ip.go lines 42-159) -/

/-- Address-family block of Create (ip.go lines 74-95): the local af
variable starts at the zero value; when the request carries a family it is
validated (Unspecified rejected), converted, checked against the network's
supported families, and the combination with a specific address is rejected
as InvalidArgument. -/
def createAddressFamily (req : IPServiceCreateRequest) (nw : Network) :
    Except GoErr AddressFamily :=
  match req.addressFamily with
  | none => .ok .unspecified
  | some fam =>
    match validateAddressFamily fam with
    | some msg => .error (.wrapped .invalidArgument (.plain msg))
    | none =>
      match (match fam with
             | .v4 => Except.ok AddressFamily.ipv4
             | .v6 => Except.ok AddressFamily.ipv6
             | .unspecified =>
               Except.error (GoErr.wrapped .invalidArgument (.plain "unsupported addressfamily"))) with
      | .error e => .error e
      | .ok af =>
        if !(nw.addressFamilies.contains af) then
          .error (.wrapped .invalidArgument
            (.plain "there is no prefix for the given addressfamily present in network"))
        else if req.ip.isSome then
          .error (.wrapped .invalidArgument
            (.plain "it is not possible to specify specificIP and addressfamily"))
        else .ok af

/-- Create: merge the machine binding into the tags and de-duplicate them,
resolve project and network (failures wrapped as Internal), run the
address-family block, apply the shared-network scope rule, allocate a
specific or random address (failures wrapped as Internal), resolve the kind
(default Ephemeral, Unspecified rejected as Internal), then persist the new
record.  Returns the result, the IPAM calls made, and the datastore after
the call. -/
def create (env : Env) (store : List IP) (req : IPServiceCreateRequest) :
    Except GoErr IP × List IpamCall × List IP :=
  let name := req.name.getD ""
  let description := req.description.getD ""
  let tags :=
    match req.machineId with
    | some mid => req.tags ++ [tagNew machineIDKey mid]
    | none => req.tags
  let tags := tagMapSlice (newTagMap tags)
  match env.projectGet req.project with
  | .error e => (.error (.wrapped .internal e), [], store)
  | .ok p =>
    match env.networkGet req.project req.network with
    | .error e => (.error (.wrapped .internal e), [], store)
    | .ok nw =>
      match createAddressFamily req nw with
      | .error e => (.error e, [], store)
      | .ok af =>
        if !nw.shared && nw.parentNetworkID ≠ "" && p.id ≠ nw.projectID then
          (.error (.wrapped .invalidArgument
            (.plain "can not allocate ip because network belongs to another project and the network is not shared")),
           [], store)
        else
          let alloc :=
            match req.ip with
            | none => allocateRandomIP env.acquire nw (some af)
            | some a => allocateSpecificIP env.acquire nw a
          match alloc.1 with
          | .error e => (.error (.wrapped .internal e), alloc.2, store)
          | .ok (ipAddress, ipParentCidr) =>
            let ipTypeRes : Except GoErr IPType :=
              match req.type with
              | none => .ok .ephemeral
              | some .ephemeral => .ok .ephemeral
              | some .static => .ok .static
              | some .unspecified =>
                .error (.wrapped .internal (.plain "given ip type is not supported"))
            match ipTypeRes with
            | .error e => (.error e, alloc.2, store)
            | .ok ipType =>
              let ip : IP :=
                { allocationUUID := env.newUUID
                  ipAddress := ipAddress
                  parentPrefixCidr := ipParentCidr
                  name := name
                  description := description
                  networkID := nw.id
                  projectID := p.id
                  type := ipType
                  tags := tags
                  created := 0
                  changed := 0 }
              (.ok ip, alloc.2, store ++ [ip])

/-! ## Update (ip.go lines 161-195) -/

/-- Update: load the scoped record, overwrite description and name only when
present in the request, map the wire kind when present (Unspecified rejected
as InvalidArgument), assign the request's tags unconditionally, and persist
the new record, returning it. -/
def update (scope : String) (store : List IP) (rq : IPServiceUpdateRequest) :
    Except GoErr IP × List IP :=
  match getIP scope store rq.ip with
  | .error e => (.error e, store)
  | .ok old =>
    let new1 :=
      match rq.description with
      | some d => { old with description := d }
      | none => old
    let new2 :=
      match rq.name with
      | some n => { new1 with name := n }
      | none => new1
    let typeRes : Except GoErr IPType :=
      match rq.type with
      | none => .ok new2.type
      | some .ephemeral => .ok .ephemeral
      | some .static => .ok .static
      | some .unspecified =>
        .error (.wrapped .invalidArgument (.plain "ip type cannot be unspecified"))
    match typeRes with
    | .error e => (.error e, store)
    | .ok t =>
      let newIP := { new2 with type := t, tags := rq.tags }
      (.ok newIP, storeUpdate store old.ipAddress newIP)

/-! ## Delete (ip.go lines 197-221) -/

/-- Delete: load the scoped record, release its address against the IPAM
allocator — a coded error other than NotFound aborts with the store intact,
a NotFound error is treated as success — then remove the store record.
Returns the result, the IPAM calls made, and the datastore after the
call. -/
def deleteIP (env : Env) (scope : String) (store : List IP) (ipArg : IP) :
    Except GoErr IP × List IpamCall × List IP :=
  match getIP scope store ipArg.ipAddress with
  | .error e => (.error e, [], store)
  | .ok ip =>
    let call := IpamCall.releaseCall ip.ipAddress ip.parentPrefixCidr
    match env.release ip.ipAddress ip.parentPrefixCidr with
    | some e =>
      if e.code ≠ .notFound then (.error (.conn e), [call], store)
      else (.ok ip, [call], storeDelete store ip.ipAddress)
    | none => (.ok ip, [call], storeDelete store ip.ipAddress)

/-! ## Admin List (ip-service.go lines 32-73) and proto conversion -/

/-- Wire record apiv2.IP as produced by ConvertToProto. -/
structure WireIP where
  ip : Addr
  uuid : String
  name : String
  description : String
  network : String
  project : String
  type : IPTypeWire
  tags : List String
  createdAt : Nat
  updatedAt : Nat
deriving DecidableEq, Repr

/-- ConvertToProto: total field-for-field rendering of a stored record to
the wire shape; Ephemeral and Static map to their wire enum values. -/
def convertToProto (m : IP) : WireIP :=
  let t : IPTypeWire :=
    match m.type with
    | .ephemeral => .ephemeral
    | .static => .static
  { ip := m.ipAddress
    uuid := m.allocationUUID
    name := m.name
    description := m.description
    network := m.networkID
    project := m.projectID
    type := t
    tags := m.tags
    createdAt := m.created
    updatedAt := m.changed }

/-- Loop of the admin List handler over the records the store returned for
the translated filter: records whose tag map carries the machine-ownership
key are skipped, the rest are converted to the wire shape in order. -/
def adminListLoop : List IP → List WireIP
  | [] => []
  | ip :: rest =>
    if (tagMapValue (newTagMap ip.tags) machineIDKey).isSome then
      adminListLoop rest
    else
      convertToProto ip :: adminListLoop rest

/-! ## Concrete fixtures used by witnesses and counterexamples -/

/-- Concrete v4 prefix with a 24-bit mask (high 24 bits fixed at 10). -/
def pfxV4 : IPPrefix := { isV6 := false, base := 2560, bits := 24 }

/-- Second concrete v4 prefix with a 24-bit mask (high 24 bits fixed at 20). -/
def pfxV4b : IPPrefix := { isV6 := false, base := 5120, bits := 24 }

/-- Concrete v6 prefix with a 64-bit mask at base zero. -/
def pfxV6 : IPPrefix := { isV6 := true, base := 0, bits := 64 }

/-- Concrete v4 address contained in pfxV4 (2565 / 256 = 10). -/
def addrIn4 : Addr := { isV6 := false, val := 2565 }

/-- Concrete v4 address contained in neither pfxV4 nor pfxV4b (999 / 256 = 3). -/
def addrOut4 : Addr := { isV6 := false, val := 999 }

/-- Shared root network supporting only v6, with the one v6 prefix, owned by
project p1. -/
def netV6only : Network :=
  { id := "n6", addressFamilies := [.ipv6], prefixes := [pfxV6],
    shared := true, parentNetworkID := "", projectID := "p1" }

/-- Shared root network supporting only v4, with the two v4 prefixes, owned
by project p1. -/
def netV4only : Network :=
  { id := "n4", addressFamilies := [.ipv4], prefixes := [pfxV4, pfxV4b],
    shared := true, parentNetworkID := "", projectID := "p1" }

/-- Unshared child network owned by project p1. -/
def netUnshared : Network :=
  { id := "n2", addressFamilies := [.ipv4], prefixes := [pfxV4],
    shared := false, parentNetworkID := "tenant-super", projectID := "p1" }

/-- Allocator oracle that always succeeds: echoes a requested specific
address, hands out the successor of the prefix base for random requests. -/
def acquireOk : AcquireOracle := fun p oip =>
  .ok (match oip with
       | some a => a
       | none => { isV6 := p.isV6, val := p.base + 1 })

/-- Allocator oracle on which every prefix is exhausted (NotFound). -/
def acquireExhausted : AcquireOracle := fun _ _ =>
  .error { code := .notFound, msg := "prefix exhausted" }

/-- Allocator oracle on which every specific address is taken
(AlreadyExists). -/
def acquireTaken : AcquireOracle := fun _ _ =>
  .error { code := .alreadyExists, msg := "ip already acquired" }

/-- Release oracle that always succeeds. -/
def releaseOk : ReleaseOracle := fun _ _ => none

/-- Environment resolving every project, the v6-only network, with the
always-succeeding oracles. -/
def envV6 : Env :=
  { projectGet := fun pid => .ok { id := pid }
    networkGet := fun _ _ => .ok netV6only
    acquire := acquireOk
    release := releaseOk
    newUUID := "uuid-1" }

/-- Environment resolving every project, the v4-only network, with the
always-succeeding oracles. -/
def envV4 : Env :=
  { projectGet := fun pid => .ok { id := pid }
    networkGet := fun _ _ => .ok netV4only
    acquire := acquireOk
    release := releaseOk
    newUUID := "uuid-2" }

/-- Environment resolving every project and the unshared child network. -/
def envUnshared : Env :=
  { projectGet := fun pid => .ok { id := pid }
    networkGet := fun _ _ => .ok netUnshared
    acquire := acquireOk
    release := releaseOk
    newUUID := "uuid-3" }

/-- Create request with no specific address, no family, no type, against the
v6-only network, from its owning project. -/
def reqNoFamily : IPServiceCreateRequest :=
  { network := "n6", project := "p1", name := none, description := none,
    ip := none, tags := [], machineId := none, addressFamily := none,
    type := none }

/-- Create request of project p2 against the unshared child network of
project p1. -/
def reqForeign : IPServiceCreateRequest :=
  { network := "n2", project := "p2", name := none, description := none,
    ip := none, tags := [], machineId := none, addressFamily := none,
    type := none }

/-- Create request with the specific address addrIn4 and the explicit
Unspecified wire type, against the v4-only network. -/
def reqUnspecType : IPServiceCreateRequest :=
  { network := "n4", project := "p1", name := none, description := none,
    ip := some addrIn4, tags := [], machineId := none, addressFamily := none,
    type := some .unspecified }

/-- Create request with the specific address addrOut4 (contained in no
prefix of the v4-only network) and no family. -/
def reqOut4 : IPServiceCreateRequest :=
  { network := "n4", project := "p1", name := none, description := none,
    ip := some addrOut4, tags := [], machineId := none, addressFamily := none,
    type := none }

/-- Stored record of project p1 at addrIn4 with one ordinary tag. -/
def exOld : IP :=
  { allocationUUID := "au-1", ipAddress := addrIn4, parentPrefixCidr := pfxV4,
    name := "old-name", description := "old-desc", networkID := "n4",
    projectID := "p1", type := .ephemeral, tags := ["color=red"],
    created := 0, changed := 0 }

/-- Stored record carrying the reserved machine-ownership tag. -/
def machineIP : IP :=
  { allocationUUID := "au-2", ipAddress := { isV6 := false, val := 2566 },
    parentPrefixCidr := pfxV4, name := "fw", description := "",
    networkID := "n4", projectID := "p1", type := .ephemeral,
    tags := [tagNew machineIDKey "m-1"], created := 0, changed := 0 }

/-- Update request for exOld that sets the name and carries no tags. -/
def reqUpdateNoTags : IPServiceUpdateRequest :=
  { ip := addrIn4, name := some "new-name", description := none,
    type := none, tags := [] }

/-- Release oracle that reports NotFound (address already absent). -/
def releaseNotFound : ReleaseOracle := fun _ _ =>
  some { code := .notFound, msg := "ip gone" }

/-- Release oracle that fails with a non-NotFound error. -/
def releaseUnavailable : ReleaseOracle := fun _ _ =>
  some { code := .unavailable, msg := "ipam down" }

/-- Environment whose release reports NotFound. -/
def envRelNF : Env :=
  { projectGet := fun pid => .ok { id := pid }
    networkGet := fun _ _ => .ok netV4only
    acquire := acquireOk
    release := releaseNotFound
    newUUID := "uuid-4" }

/-- Environment resolving every project and the v4-only network, whose
allocator reports every specific address as already taken. -/
def envTaken : Env :=
  { projectGet := fun pid => .ok { id := pid }
    networkGet := fun _ _ => .ok netV4only
    acquire := acquireTaken
    release := releaseOk
    newUUID := "uuid-5" }

/-- Create request with the specific address addrIn4 (contained in pfxV4 of
the v4-only network) and no family and no type. -/
def reqSpecific : IPServiceCreateRequest :=
  { network := "n4", project := "p1", name := none, description := none,
    ip := some addrIn4, tags := [], machineId := none, addressFamily := none,
    type := none }

/-! # Theorems -/

section Theorems

/-- Every error produced by the address-family block of Create is
InvalidArgument-class. -/
theorem createAddressFamily_error_invalid (req : IPServiceCreateRequest) (nw : Network)
    (e : GoErr) (h : createAddressFamily req nw = .error e) :
    errClass e = some .invalidArgument := by
  unfold createAddressFamily at h
  cases haf : req.addressFamily with
  | none => rw [haf] at h; exact Except.noConfusion h
  | some fam =>
    rw [haf] at h
    cases fam with
    | unspecified =>
      simp only [validateAddressFamily] at h
      injection h with h
      subst h
      rfl
    | v4 =>
      simp only [validateAddressFamily] at h
      split at h
      · injection h with h; subst h; rfl
      · split at h
        · injection h with h; subst h; rfl
        · exact Except.noConfusion h
    | v6 =>
      simp only [validateAddressFamily] at h
      split at h
      · injection h with h; subst h; rfl
      · split at h
        · injection h with h; subst h; rfl
        · exact Except.noConfusion h

/-- C1: with no specific address and no family in the request, Create passes
a pointer to the zero-valued family to AllocateRandomIP, which matches no
prefix, so allocation fails with the no-ips-left error and no allocator call
is made — even against a network whose single supported family is v6 and
whose allocator has free v6 addresses; the nil-pointer fallback inside
AllocateRandomIP (use the single supported family) would have succeeded.
This refutes the claim that the single supported family (or v4) is used. -/
theorem claim1_create_zero_family_never_allocates :
    (create envV6 [] reqNoFamily).1 =
      .error (.wrapped .internal (.plain "cannot allocate free ip in ipam, no ips left")) ∧
    (create envV6 [] reqNoFamily).2.1 = [] ∧
    (create envV6 [] reqNoFamily).2.2 = [] ∧
    allocateRandomIP acquireOk netV6only none =
      (.ok ({ isV6 := true, val := 1 }, pfxV6), [.acquireCall pfxV6 none]) :=
  ⟨rfl, rfl, rfl, rfl⟩

/-- C4 counterexample: Create for project p2 against the unshared child
network of project p1 fails, but with an InvalidArgument-class error, not a
PermissionDenied-class error; no allocator call is made. -/
theorem claim4_counterexample :
    (create envUnshared [] reqForeign).1 =
      .error (.wrapped .invalidArgument
        (.plain "can not allocate ip because network belongs to another project and the network is not shared")) ∧
    errClass (.wrapped .invalidArgument
        (.plain "can not allocate ip because network belongs to another project and the network is not shared")) =
      some .invalidArgument ∧
    (some Code.invalidArgument ≠ some Code.permissionDenied) ∧
    (create envUnshared [] reqForeign).2.1 = [] :=
  ⟨rfl, rfl, by decide, rfl⟩

/-- C4 (amended): a Create request targeting an unshared network with a
non-empty parent whose owning project differs from the requesting project
fails with an InvalidArgument-class error, makes no allocator call, and
leaves the datastore unchanged. -/
theorem claim4_unshared_foreign_network_rejected
    (env : Env) (store : List IP) (req : IPServiceCreateRequest)
    (p : Project) (nw : Network)
    (hp : env.projectGet req.project = .ok p)
    (hn : env.networkGet req.project req.network = .ok nw)
    (hsh : nw.shared = false)
    (hpar : nw.parentNetworkID ≠ "")
    (hproj : p.id ≠ nw.projectID) :
    (∃ e, (create env store req).1 = .error e ∧ errClass e = some .invalidArgument) ∧
    (create env store req).2.1 = [] ∧
    (create env store req).2.2 = store := by
  unfold create
  simp only [hp, hn]
  cases hcaf : createAddressFamily req nw with
  | error e =>
    simp only [hcaf]
    exact ⟨⟨e, by simp, createAddressFamily_error_invalid req nw e hcaf⟩, trivial, trivial⟩
  | ok af =>
    have hcond : (!nw.shared && decide (nw.parentNetworkID ≠ "") &&
        decide (p.id ≠ nw.projectID)) = true := by
      simp [hsh, hpar, hproj]
    simp only [hcaf, hcond, if_true]
    exact ⟨⟨GoErr.wrapped .invalidArgument
      (.plain "can not allocate ip because network belongs to another project and the network is not shared"),
      by simp, rfl⟩, trivial, trivial⟩

/-- C4 witness: the amended theorem applied to the concrete unshared-network
environment. -/
theorem claim4_witness :
    (∃ e, (create envUnshared [] reqForeign).1 = .error e ∧
      errClass e = some .invalidArgument) ∧
    (create envUnshared [] reqForeign).2.1 = [] ∧
    (create envUnshared [] reqForeign).2.2 = [] :=
  claim4_unshared_foreign_network_rejected envUnshared [] reqForeign
    { id := "p2" } netUnshared rfl rfl rfl (by decide) (by decide)

/-- Every IPAM call recorded by the specific-allocation loop is an acquire,
never a release. -/
theorem allocSpecificLoop_no_release (acquire : AcquireOracle) (ip : Addr) :
    ∀ ps : List IPPrefix, ∀ c ∈ (allocSpecificLoop acquire ip ps).2, c.isRelease = false := by
  intro ps
  induction ps with
  | nil => intro c hc; simp [allocSpecificLoop] at hc
  | cons p rest ih =>
    intro c hc
    unfold allocSpecificLoop at hc
    split at hc
    · exact ih c hc
    · split at hc
      · split at hc
        · simp at hc; subst hc; rfl
        · simp at hc; subst hc; rfl
      · simp at hc; subst hc; rfl

/-- Every IPAM call recorded by the random-allocation loop is an acquire,
never a release. -/
theorem allocRandomLoop_no_release (acquire : AcquireOracle) :
    ∀ ps : List IPPrefix, ∀ c ∈ (allocRandomLoop acquire ps).2, c.isRelease = false := by
  intro ps
  induction ps with
  | nil => intro c hc; simp [allocRandomLoop] at hc
  | cons p rest ih =>
    intro c hc
    unfold allocRandomLoop at hc
    split at hc
    · split at hc
      · simp at hc
        cases hc with
        | inl h => subst h; rfl
        | inr h => exact ih c h
      · simp at hc; subst hc; rfl
    · simp at hc; subst hc; rfl

/-- A successful run of the specific-allocation loop made at least one IPAM
call. -/
theorem allocSpecificLoop_ok_calls_ne_nil (acquire : AcquireOracle) (ip : Addr) :
    ∀ (ps : List IPPrefix) (x : Addr × IPPrefix) (calls : List IpamCall),
      allocSpecificLoop acquire ip ps = (.ok x, calls) → calls ≠ [] := by
  intro ps
  induction ps with
  | nil =>
    intro x calls h
    unfold allocSpecificLoop at h
    injection h with h1 h2
    exact Except.noConfusion h1
  | cons p rest ih =>
    intro x calls h
    unfold allocSpecificLoop at h
    split at h
    · exact ih x calls h
    · split at h
      · split at h
        · injection h with h1 h2; exact Except.noConfusion h1
        · injection h with h1 h2; exact Except.noConfusion h1
      · injection h with h1 h2; subst h2; simp

/-- A successful run of the random-allocation loop made at least one IPAM
call. -/
theorem allocRandomLoop_ok_calls_ne_nil (acquire : AcquireOracle) :
    ∀ (ps : List IPPrefix) (x : Addr × IPPrefix) (calls : List IpamCall),
      allocRandomLoop acquire ps = (.ok x, calls) → calls ≠ [] := by
  intro ps
  induction ps with
  | nil =>
    intro x calls h
    unfold allocRandomLoop at h
    injection h with h1 h2
    exact Except.noConfusion h1
  | cons p rest ih =>
    intro x calls h
    unfold allocRandomLoop at h
    split at h
    · split at h
      · injection h with h1 h2; subst h2; simp
      · injection h with h1 h2; exact Except.noConfusion h1
    · injection h with h1 h2; subst h2; simp

/-- C10: a Create request carrying the explicit Unspecified wire type is
rejected only after the external acquisition already succeeded: the result
is the Internal unsupported-type error, the IPAM calls of the successful
allocation were made (at least one, none of them a release), and the
datastore is unchanged — the acquired address stays allocated upstream with
no Store record and no compensating release. -/
theorem claim10_unspecified_type_leaks_allocation
    (env : Env) (store : List IP) (req : IPServiceCreateRequest)
    (p : Project) (nw : Network) (af : AddressFamily)
    (addr : Addr) (pfx : IPPrefix) (calls : List IpamCall)
    (hp : env.projectGet req.project = .ok p)
    (hn : env.networkGet req.project req.network = .ok nw)
    (hcaf : createAddressFamily req nw = .ok af)
    (hscope : nw.shared = true)
    (htype : req.type = some .unspecified)
    (halloc : (match req.ip with
               | none => allocateRandomIP env.acquire nw (some af)
               | some a => allocateSpecificIP env.acquire nw a) = (.ok (addr, pfx), calls)) :
    (create env store req).1 =
      .error (.wrapped .internal (.plain "given ip type is not supported")) ∧
    (create env store req).2.1 = calls ∧
    calls ≠ [] ∧
    (∀ c ∈ calls, c.isRelease = false) ∧
    (create env store req).2.2 = store := by
  have hcond : (!nw.shared && decide (nw.parentNetworkID ≠ "") &&
      decide (p.id ≠ nw.projectID)) = false := by
    simp [hscope]
  have hprops : calls ≠ [] ∧ ∀ c ∈ calls, c.isRelease = false := by
    cases hip : req.ip with
    | none =>
      rw [hip] at halloc
      have halloc2 : allocRandomLoop env.acquire (ofFamily af nw.prefixes) =
          (.ok (addr, pfx), calls) := halloc
      refine ⟨allocRandomLoop_ok_calls_ne_nil env.acquire _ _ _ halloc2, ?_⟩
      intro c hc
      apply allocRandomLoop_no_release env.acquire (ofFamily af nw.prefixes)
      rw [halloc2]
      exact hc
    | some a =>
      rw [hip] at halloc
      have halloc2 : allocSpecificLoop env.acquire a
          (ofFamily (if a.isV6 then AddressFamily.ipv6 else .ipv4) nw.prefixes) =
          (.ok (addr, pfx), calls) := halloc
      refine ⟨allocSpecificLoop_ok_calls_ne_nil env.acquire a _ _ _ halloc2, ?_⟩
      intro c hc
      apply allocSpecificLoop_no_release env.acquire a
        (ofFamily (if a.isV6 then AddressFamily.ipv6 else .ipv4) nw.prefixes)
      rw [halloc2]
      exact hc
  unfold create
  simp only [hp, hn, hcaf, hcond, Bool.false_eq_true, if_false, halloc, htype]
  exact ⟨trivial, trivial, hprops.1, hprops.2, trivial⟩

/-- C10 witness: the theorem applied to a concrete Create of a specific
address with the Unspecified type against the shared v4-only network. -/
theorem claim10_witness :
    (create envV4 [] reqUnspecType).1 =
      .error (.wrapped .internal (.plain "given ip type is not supported")) ∧
    (create envV4 [] reqUnspecType).2.1 = [.acquireCall pfxV4 (some addrIn4)] ∧
    ([IpamCall.acquireCall pfxV4 (some addrIn4)] ≠ []) ∧
    (∀ c ∈ [IpamCall.acquireCall pfxV4 (some addrIn4)], c.isRelease = false) ∧
    (create envV4 [] reqUnspecType).2.2 = [] :=
  claim10_unspecified_type_leaks_allocation envV4 [] reqUnspecType
    { id := "p1" } netV4only .unspecified addrIn4 pfxV4
    [.acquireCall pfxV4 (some addrIn4)] rfl rfl rfl rfl rfl rfl

/-- The specific-allocation loop skips every leading prefix that does not
contain the requested address. -/
theorem allocSpecificLoop_skips (acquire : AcquireOracle) (ip : Addr) :
    ∀ l1 : List IPPrefix, (∀ p ∈ l1, prefixContains p ip = false) →
      ∀ l2 : List IPPrefix,
        allocSpecificLoop acquire ip (l1 ++ l2) = allocSpecificLoop acquire ip l2 := by
  intro l1
  induction l1 with
  | nil => intro _ l2; rfl
  | cons p rest ih =>
    intro h l2
    have hp : prefixContains p ip = false := h p (by simp)
    have step : allocSpecificLoop acquire ip (p :: (rest ++ l2)) =
        allocSpecificLoop acquire ip (rest ++ l2) := by
      conv_lhs => unfold allocSpecificLoop
      rw [hp]
      simp
    show allocSpecificLoop acquire ip (p :: (rest ++ l2)) = _
    rw [step]
    exact ih (fun q hq => h q (by simp [hq])) l2

/-- C5 counterexample: a Create request for a specific contained address on
which the allocator reports AlreadyExists fails, but the error Create
surfaces is Internal-class (the Conflict error is wrapped at ip.go line
118), not Conflict-class; the trace shows the single allocator call. -/
theorem claim5_counterexample :
    (create envTaken [] reqSpecific).1 =
      .error (.wrapped .internal (genericConflict "ip already allocated")) ∧
    errClass (.wrapped .internal (genericConflict "ip already allocated")) =
      some .internal ∧
    (some Code.internal ≠ some Code.conflict) ∧
    (create envTaken [] reqSpecific).2.1 = [.acquireCall pfxV4 (some addrIn4)] :=
  ⟨rfl, rfl, by decide, rfl⟩

/-- C5 (amended): when the first containing prefix of the family-matching
list holds the requested address and the allocator reports AlreadyExists
there, AllocateSpecificIP fails with the Conflict error and the trace shows
exactly one allocator call — no further prefixes are tried; under the
hypotheses that let Create reach the allocation step, Create surfaces that
failure wrapped as an Internal-class error (the Conflict stays inside the
wrap), still with the single allocator call and an unchanged datastore. -/
theorem claim5_already_exists_conflict
    (acquire : AcquireOracle) (parent : Network) (a : Addr)
    (l1 l2 : List IPPrefix) (p0 : IPPrefix) (e : ConnErr)
    (hsplit : ofFamily (if a.isV6 then .ipv6 else .ipv4) parent.prefixes = l1 ++ p0 :: l2)
    (hl1 : ∀ p ∈ l1, prefixContains p a = false)
    (hp0 : prefixContains p0 a = true)
    (hacq : acquire p0 (some a) = .error e)
    (hcode : e.code = .alreadyExists) :
    allocateSpecificIP acquire parent a =
      (.error (genericConflict "ip already allocated"), [.acquireCall p0 (some a)]) ∧
    (∀ (env : Env) (store : List IP) (req : IPServiceCreateRequest)
        (pj : Project) (af : AddressFamily),
      env.projectGet req.project = .ok pj →
      env.networkGet req.project req.network = .ok parent →
      env.acquire = acquire →
      req.ip = some a →
      createAddressFamily req parent = .ok af →
      parent.shared = true →
      (create env store req).1 =
        .error (.wrapped .internal (genericConflict "ip already allocated")) ∧
      errClass ((.wrapped .internal (genericConflict "ip already allocated")) : GoErr) =
        some .internal ∧
      (create env store req).2.1 = [.acquireCall p0 (some a)] ∧
      (create env store req).2.2 = store) := by
  have hloop : allocateSpecificIP acquire parent a =
      (.error (genericConflict "ip already allocated"), [.acquireCall p0 (some a)]) := by
    show allocSpecificLoop acquire a
      (ofFamily (if a.isV6 then .ipv6 else .ipv4) parent.prefixes) = _
    rw [hsplit, allocSpecificLoop_skips acquire a l1 hl1 (p0 :: l2)]
    unfold allocSpecificLoop
    rw [hp0]
    simp only [Bool.not_true, Bool.false_eq_true, if_false, hacq]
    rw [if_pos hcode]
  refine ⟨hloop, ?_⟩
  intro env store req pj af hpj hn hacqenv hip hcaf hshared
  have hcond : (!parent.shared && decide (parent.parentNetworkID ≠ "") &&
      decide (pj.id ≠ parent.projectID)) = false := by
    simp [hshared]
  unfold create
  simp only [hpj, hn, hcaf, hcond, Bool.false_eq_true, if_false, hip, hacqenv, hloop]
  exact ⟨trivial, rfl, trivial, trivial⟩

/-- C5 witness: the amended theorem applied to the v4-only network, the
contained address addrIn4, and the allocator on which the address is already
taken, through Create as well. -/
theorem claim5_witness :
    allocateSpecificIP acquireTaken netV4only addrIn4 =
      (.error (genericConflict "ip already allocated"), [.acquireCall pfxV4 (some addrIn4)]) ∧
    (create envTaken [] reqSpecific).1 =
      .error (.wrapped .internal (genericConflict "ip already allocated")) ∧
    (create envTaken [] reqSpecific).2.1 = [.acquireCall pfxV4 (some addrIn4)] ∧
    (create envTaken [] reqSpecific).2.2 = [] := by
  have hmain := claim5_already_exists_conflict acquireTaken netV4only addrIn4
    [] [pfxV4b] pfxV4 { code := .alreadyExists, msg := "ip already acquired" }
    rfl (by simp) (by decide) rfl rfl
  have hcreate := hmain.2 envTaken [] reqSpecific { id := "p1" } .unspecified
    rfl rfl rfl rfl rfl rfl
  exact ⟨hmain.1, hcreate.1, hcreate.2.2.1, hcreate.2.2.2⟩

/-- C6 counterexample: on an address contained in no prefix of the network,
AllocateSpecificIP fails with the plain not-contained error, which is
unclassified (not InvalidArgument-class), and Create surfaces it as an
Internal-class error (also not InvalidArgument-class). -/
theorem claim6_counterexample :
    allocateSpecificIP acquireOk netV4only addrOut4 =
      (.error (.plain "specific ip not contained in any of the defined prefixes"), []) ∧
    errClass (.plain "specific ip not contained in any of the defined prefixes") = none ∧
    ((none : Option Code) ≠ some Code.invalidArgument) ∧
    (create envV4 [] reqOut4).1 =
      .error (.wrapped .internal (.plain "specific ip not contained in any of the defined prefixes")) ∧
    errClass (.wrapped .internal
      (.plain "specific ip not contained in any of the defined prefixes")) = some .internal ∧
    (some Code.internal ≠ some Code.invalidArgument) :=
  ⟨rfl, rfl, by decide, rfl, rfl, by decide⟩

/-- C6 (amended): on a well-formed literal contained in no prefix of the
network, AllocateSpecificIP always fails — regardless of the allocator — with
the plain not-contained error, which carries no error class, and it makes no
allocator call; under the hypotheses that let Create reach the allocation
step, Create surfaces this failure as an Internal-class error with no
allocator call and an unchanged datastore. -/
theorem claim6_not_contained_always_fails
    (acquire : AcquireOracle) (parent : Network) (a : Addr)
    (h : ∀ p ∈ parent.prefixes, prefixContains p a = false) :
    allocateSpecificIP acquire parent a =
      (.error (.plain "specific ip not contained in any of the defined prefixes"), []) ∧
    errClass (.plain "specific ip not contained in any of the defined prefixes") = none ∧
    (∀ (env : Env) (store : List IP) (req : IPServiceCreateRequest) (p0 : Project)
        (af : AddressFamily),
      env.projectGet req.project = .ok p0 →
      env.networkGet req.project req.network = .ok parent →
      env.acquire = acquire →
      req.ip = some a →
      createAddressFamily req parent = .ok af →
      parent.shared = true →
      (create env store req).1 =
        .error (.wrapped .internal
          (.plain "specific ip not contained in any of the defined prefixes")) ∧
      (create env store req).2.1 = [] ∧
      (create env store req).2.2 = store) := by
  have hloop : allocateSpecificIP acquire parent a =
      (.error (.plain "specific ip not contained in any of the defined prefixes"), []) := by
    show allocSpecificLoop acquire a
      (ofFamily (if a.isV6 then .ipv6 else .ipv4) parent.prefixes) = _
    have hsub : ∀ p ∈ ofFamily (if a.isV6 then AddressFamily.ipv6 else .ipv4) parent.prefixes,
        prefixContains p a = false := by
      intro p hp
      exact h p (List.mem_filter.mp hp).1
    have := allocSpecificLoop_skips acquire a
      (ofFamily (if a.isV6 then AddressFamily.ipv6 else .ipv4) parent.prefixes) hsub []
    rw [List.append_nil] at this
    rw [this]
    rfl
  refine ⟨hloop, rfl, ?_⟩
  intro env store req p0 af hp hn hacq hip hcaf hshared
  have hcond : (!parent.shared && decide (parent.parentNetworkID ≠ "") &&
      decide (p0.id ≠ parent.projectID)) = false := by
    simp [hshared]
  unfold create
  simp only [hp, hn, hcaf, hcond, Bool.false_eq_true, if_false, hip, hacq, hloop]
  exact ⟨trivial, trivial, trivial⟩

/-- C6 witness: the amended theorem applied to the v4-only network and the
non-contained address addrOut4, through Create as well. -/
theorem claim6_witness :
    allocateSpecificIP acquireOk netV4only addrOut4 =
      (.error (.plain "specific ip not contained in any of the defined prefixes"), []) ∧
    (create envV4 [] reqOut4).1 =
      .error (.wrapped .internal
        (.plain "specific ip not contained in any of the defined prefixes")) ∧
    (create envV4 [] reqOut4).2.1 = [] ∧
    (create envV4 [] reqOut4).2.2 = [] := by
  have hmain := claim6_not_contained_always_fails acquireOk netV4only addrOut4 (by decide)
  have hcreate := hmain.2.2 envV4 [] reqOut4 { id := "p1" } .unspecified rfl rfl rfl rfl rfl rfl
  exact ⟨hmain.1, hcreate.1, hcreate.2.1, hcreate.2.2⟩

/-- The IPAM calls of the random-allocation loop are exactly the leading
prefixes of the list, taken in listed order. -/
theorem randLoop_trace_take (acquire : AcquireOracle) :
    ∀ ps : List IPPrefix,
      (allocRandomLoop acquire ps).2 =
        (ps.take (allocRandomLoop acquire ps).2.length).map
          (fun p => IpamCall.acquireCall p none) := by
  intro ps
  induction ps with
  | nil => rfl
  | cons q rest ih =>
    cases hacq : acquire q none with
    | error e =>
      rcases e with ⟨c, m⟩
      by_cases hnf : c = Code.notFound
      · subst hnf
        have hstep : allocRandomLoop acquire (q :: rest) =
            ((allocRandomLoop acquire rest).1,
             .acquireCall q none :: (allocRandomLoop acquire rest).2) := by
          simp [allocRandomLoop, hacq]
        rw [hstep]
        simp only [List.length_cons, List.take_succ_cons, List.map_cons]
        exact congrArg (IpamCall.acquireCall q none :: ·) ih
      · have hstep : allocRandomLoop acquire (q :: rest) =
            (.error (.conn ⟨c, m⟩), [.acquireCall q none]) := by
          simp [allocRandomLoop, hacq, hnf]
        rw [hstep]
        rfl
    | ok a =>
      have hstep : allocRandomLoop acquire (q :: rest) =
          (.ok (a, q), [.acquireCall q none]) := by
        simp [allocRandomLoop, hacq]
      rw [hstep]
      rfl

/-- Every prefix the random-allocation loop moved past (all tried prefixes
except possibly the last) was answered NotFound by the allocator. -/
theorem randLoop_continue_notFound (acquire : AcquireOracle) :
    ∀ ps : List IPPrefix,
      ∀ p ∈ ps.take ((allocRandomLoop acquire ps).2.length - 1),
        ∃ m, acquire p none = .error { code := .notFound, msg := m } := by
  intro ps
  induction ps with
  | nil => intro p hp; simp at hp
  | cons q rest ih =>
    intro p hp
    cases hacq : acquire q none with
    | error e =>
      rcases e with ⟨c, m⟩
      by_cases hnf : c = Code.notFound
      · subst hnf
        have hstep : allocRandomLoop acquire (q :: rest) =
            ((allocRandomLoop acquire rest).1,
             .acquireCall q none :: (allocRandomLoop acquire rest).2) := by
          simp [allocRandomLoop, hacq]
        rw [hstep] at hp
        simp only [List.length_cons, Nat.add_sub_cancel] at hp
        cases hlen : (allocRandomLoop acquire rest).2.length with
        | zero => rw [hlen] at hp; simp at hp
        | succ n =>
          rw [hlen, List.take_succ_cons] at hp
          rcases List.mem_cons.mp hp with h | h
          · subst h; exact ⟨m, hacq⟩
          · refine ih p ?_
            rw [hlen]
            simpa using h
      · have hstep : allocRandomLoop acquire (q :: rest) =
            (.error (.conn ⟨c, m⟩), [.acquireCall q none]) := by
          simp [allocRandomLoop, hacq, hnf]
        rw [hstep] at hp
        simp at hp
    | ok a =>
      have hstep : allocRandomLoop acquire (q :: rest) =
          (.ok (a, q), [.acquireCall q none]) := by
        simp [allocRandomLoop, hacq]
      rw [hstep] at hp
      simp at hp

/-- The random-allocation loop ends in the plain no-ips-left error exactly
when the allocator answered NotFound on every prefix of the list. -/
theorem randLoop_exhausted_iff (acquire : AcquireOracle) :
    ∀ ps : List IPPrefix,
      ((allocRandomLoop acquire ps).1 =
        .error (.plain "cannot allocate free ip in ipam, no ips left")) ↔
      (∀ p ∈ ps, ∃ m, acquire p none = .error { code := .notFound, msg := m }) := by
  intro ps
  induction ps with
  | nil => simp [allocRandomLoop]
  | cons q rest ih =>
    cases hacq : acquire q none with
    | error e =>
      rcases e with ⟨c, m⟩
      by_cases hnf : c = Code.notFound
      · subst hnf
        have hstep : (allocRandomLoop acquire (q :: rest)).1 =
            (allocRandomLoop acquire rest).1 := by
          simp [allocRandomLoop, hacq]
        rw [hstep]
        constructor
        · intro h1 p hp
          rcases List.mem_cons.mp hp with h | h
          · subst h; exact ⟨m, hacq⟩
          · exact (ih.mp h1) p h
        · intro h2
          exact ih.mpr fun p hp => h2 p (by simp [hp])
      · have hstep : (allocRandomLoop acquire (q :: rest)).1 =
            .error (.conn ⟨c, m⟩) := by
          simp [allocRandomLoop, hacq, hnf]
        rw [hstep]
        constructor
        · intro h1; simp at h1
        · intro h2
          rcases h2 q (by simp) with ⟨m2, hm2⟩
          rw [hacq] at hm2
          injection hm2 with hm2
          injection hm2 with hc hm
          exact absurd hc hnf
    | ok a =>
      have hstep : (allocRandomLoop acquire (q :: rest)).1 = .ok (a, q) := by
        simp [allocRandomLoop, hacq]
      rw [hstep]
      constructor
      · intro h1; simp at h1
      · intro h2
        rcases h2 q (by simp) with ⟨m2, hm2⟩
        rw [hacq] at hm2
        simp at hm2

/-- When the random-allocation loop returns a coded allocator error, that
error came from the last prefix tried, its code is not NotFound, and no
further prefix was tried after it. -/
theorem randLoop_abort (acquire : AcquireOracle) :
    ∀ (ps : List IPPrefix) (e : ConnErr),
      (allocRandomLoop acquire ps).1 = .error (.conn e) →
      e.code ≠ .notFound ∧
      ∃ p, (allocRandomLoop acquire ps).2.getLast? = some (.acquireCall p none) ∧
        acquire p none = .error e := by
  intro ps
  induction ps with
  | nil => intro e h; simp [allocRandomLoop] at h
  | cons q rest ih =>
    intro e h
    cases hacq : acquire q none with
    | error e0 =>
      rcases e0 with ⟨c, m⟩
      by_cases hnf : c = Code.notFound
      · subst hnf
        have hstep1 : (allocRandomLoop acquire (q :: rest)).1 =
            (allocRandomLoop acquire rest).1 := by
          simp [allocRandomLoop, hacq]
        have hstep2 : (allocRandomLoop acquire (q :: rest)).2 =
            .acquireCall q none :: (allocRandomLoop acquire rest).2 := by
          simp [allocRandomLoop, hacq]
        rw [hstep1] at h
        rcases ih e h with ⟨hcode, p, hlast, hap⟩
        refine ⟨hcode, p, ?_, hap⟩
        rw [hstep2]
        cases hrec : (allocRandomLoop acquire rest).2 with
        | nil => rw [hrec] at hlast; simp at hlast
        | cons c0 ct =>
          rw [hrec] at hlast
          rw [List.getLast?_cons_cons]
          exact hlast
      · have hstep1 : (allocRandomLoop acquire (q :: rest)).1 =
            .error (.conn ⟨c, m⟩) := by
          simp [allocRandomLoop, hacq, hnf]
        have hstep2 : (allocRandomLoop acquire (q :: rest)).2 =
            [.acquireCall q none] := by
          simp [allocRandomLoop, hacq, hnf]
        rw [hstep1] at h
        injection h with h
        injection h with h
        subst h
        exact ⟨hnf, q, by rw [hstep2]; rfl, hacq⟩
    | ok a =>
      have hstep1 : (allocRandomLoop acquire (q :: rest)).1 = .ok (a, q) := by
        simp [allocRandomLoop, hacq]
      rw [hstep1] at h
      exact Except.noConfusion h

/-- C7 counterexample: with both v4 prefixes exhausted, AllocateRandomIP
fails with the plain no-ips-left error, which carries no error class and in
particular is not ResourceExhausted-class. -/
theorem claim7_counterexample :
    allocateRandomIP acquireExhausted netV4only (some .ipv4) =
      (.error (.plain "cannot allocate free ip in ipam, no ips left"),
       [.acquireCall pfxV4 none, .acquireCall pfxV4b none]) ∧
    errClass (.plain "cannot allocate free ip in ipam, no ips left") = none ∧
    ((none : Option Code) ≠ some Code.resourceExhausted) :=
  ⟨rfl, rfl, by decide⟩

/-- C7 (amended): for a resolved family, AllocateRandomIP tries the
network's prefixes of that family in listed order (the call trace is a
leading segment of the family-filtered list); every prefix it moved past was
answered NotFound; it ends in the plain no-ips-left error (unclassified, not
ResourceExhausted-class) exactly when every prefix of the family was
exhausted; and any other allocator error aborts the iteration at the prefix
that produced it. -/
theorem claim7_random_prefix_iteration
    (acquire : AcquireOracle) (parent : Network) (f : AddressFamily) :
    ((allocateRandomIP acquire parent (some f)).2 =
      ((ofFamily f parent.prefixes).take
        (allocateRandomIP acquire parent (some f)).2.length).map
        (fun p => IpamCall.acquireCall p none)) ∧
    (∀ p ∈ (ofFamily f parent.prefixes).take
        ((allocateRandomIP acquire parent (some f)).2.length - 1),
      ∃ m, acquire p none = .error { code := .notFound, msg := m }) ∧
    (((allocateRandomIP acquire parent (some f)).1 =
        .error (.plain "cannot allocate free ip in ipam, no ips left")) ↔
      (∀ p ∈ ofFamily f parent.prefixes,
        ∃ m, acquire p none = .error { code := .notFound, msg := m })) ∧
    (∀ e : ConnErr, (allocateRandomIP acquire parent (some f)).1 = .error (.conn e) →
      e.code ≠ .notFound ∧
      ∃ p, (allocateRandomIP acquire parent (some f)).2.getLast? =
          some (.acquireCall p none) ∧
        acquire p none = .error e) :=
  ⟨randLoop_trace_take acquire (ofFamily f parent.prefixes),
   randLoop_continue_notFound acquire (ofFamily f parent.prefixes),
   randLoop_exhausted_iff acquire (ofFamily f parent.prefixes),
   randLoop_abort acquire (ofFamily f parent.prefixes)⟩

/-- C7 witness: the theorem applied to the v4-only network with the
exhausted allocator concludes the no-ips-left failure. -/
theorem claim7_witness :
    (allocateRandomIP acquireExhausted netV4only (some .ipv4)).1 =
      .error (.plain "cannot allocate free ip in ipam, no ips left") :=
  (claim7_random_prefix_iteration acquireExhausted netV4only .ipv4).2.2.1.mpr
    (fun _ _ => ⟨"prefix exhausted", rfl⟩)

/-- C2 counterexample: an Update request that sets the name and carries no
tags wipes the stored record's prior tags — the unset tags field does not
retain its prior value. -/
theorem claim2_counterexample :
    (update "p1" [exOld] reqUpdateNoTags).1 =
      .ok { exOld with name := "new-name", tags := [] } ∧
    exOld.tags ≠ ([] : List String) :=
  ⟨rfl, by decide⟩

/-- C2 (amended): on a successful Update, fields unset in the request retain
their prior value, while tags is always fully replaced by the request's tag
list — also when the request carries no tags, which clears them. -/
theorem claim2_partial_update_tags_always_replaced
    (scope : String) (store : List IP) (rq : IPServiceUpdateRequest) (old : IP)
    (hget : getIP scope store rq.ip = .ok old)
    (htype : rq.type ≠ some .unspecified) :
    ∃ ip2, (update scope store rq).1 = .ok ip2 ∧
      ip2.name = rq.name.getD old.name ∧
      ip2.description = rq.description.getD old.description ∧
      ip2.type = (match rq.type with
                  | some .ephemeral => IPType.ephemeral
                  | some .static => IPType.static
                  | _ => old.type) ∧
      ip2.tags = rq.tags := by
  rcases rq with ⟨rip, rname, rdesc, rtype, rtags⟩
  dsimp only at hget htype ⊢
  unfold update
  dsimp only
  rw [hget]
  cases rdesc <;> cases rname <;>
    (cases rtype with
     | none => exact ⟨_, rfl, rfl, rfl, rfl, rfl⟩
     | some t =>
       cases t with
       | unspecified => exact absurd rfl htype
       | ephemeral => exact ⟨_, rfl, rfl, rfl, rfl, rfl⟩
       | static => exact ⟨_, rfl, rfl, rfl, rfl, rfl⟩)

/-- C2 witness: the amended theorem applied to the concrete stored record and
the no-tags update request. -/
theorem claim2_witness :
    ∃ ip2, (update "p1" [exOld] reqUpdateNoTags).1 = .ok ip2 ∧
      ip2.name = reqUpdateNoTags.name.getD exOld.name ∧
      ip2.description = reqUpdateNoTags.description.getD exOld.description ∧
      ip2.type = (match reqUpdateNoTags.type with
                  | some .ephemeral => IPType.ephemeral
                  | some .static => IPType.static
                  | _ => exOld.type) ∧
      ip2.tags = reqUpdateNoTags.tags :=
  claim2_partial_update_tags_always_replaced "p1" [exOld] reqUpdateNoTags exOld
    rfl (by decide)

/-- C8: a successful Update leaves the record's address, parent prefix,
network id, project id and allocation id exactly as they were on the loaded
record. -/
theorem claim8_update_immutable_fields
    (scope : String) (store : List IP) (rq : IPServiceUpdateRequest)
    (old ip2 : IP)
    (hget : getIP scope store rq.ip = .ok old)
    (hok : (update scope store rq).1 = .ok ip2) :
    ip2.ipAddress = old.ipAddress ∧
    ip2.parentPrefixCidr = old.parentPrefixCidr ∧
    ip2.networkID = old.networkID ∧
    ip2.projectID = old.projectID ∧
    ip2.allocationUUID = old.allocationUUID := by
  rcases rq with ⟨rip, rname, rdesc, rtype, rtags⟩
  dsimp only at hget hok
  unfold update at hok
  dsimp only at hok
  rw [hget] at hok
  cases rdesc <;> cases rname <;>
    (cases rtype with
     | none =>
       injection hok with h
       subst h
       exact ⟨rfl, rfl, rfl, rfl, rfl⟩
     | some t =>
       cases t with
       | unspecified => exact Except.noConfusion hok
       | ephemeral =>
         injection hok with h
         subst h
         exact ⟨rfl, rfl, rfl, rfl, rfl⟩
       | static =>
         injection hok with h
         subst h
         exact ⟨rfl, rfl, rfl, rfl, rfl⟩)

/-- C8 witness: the theorem applied to the concrete update of exOld. -/
theorem claim8_witness :
    ({ exOld with name := "new-name", tags := [] } : IP).ipAddress = exOld.ipAddress ∧
    ({ exOld with name := "new-name", tags := [] } : IP).parentPrefixCidr = exOld.parentPrefixCidr ∧
    ({ exOld with name := "new-name", tags := [] } : IP).networkID = exOld.networkID ∧
    ({ exOld with name := "new-name", tags := [] } : IP).projectID = exOld.projectID ∧
    ({ exOld with name := "new-name", tags := [] } : IP).allocationUUID = exOld.allocationUUID :=
  claim8_update_immutable_fields "p1" [exOld] reqUpdateNoTags exOld
    { exOld with name := "new-name", tags := [] } rfl rfl

/-- No record surviving a store deletion carries the deleted id. -/
theorem storeDelete_not_mem (store : List IP) (id : Addr) :
    ∀ x ∈ storeDelete store id, x.ipAddress ≠ id := by
  intro x hx
  have h := (List.mem_filter.mp hx).2
  simpa using h

/-- C3: when release reports NotFound, Delete treats it as success and
removes the Store record; when release fails with any other coded error,
Delete aborts with that error and the Store is left intact. -/
theorem claim3_delete_release_errors
    (env : Env) (scope : String) (store : List IP) (ipArg old : IP)
    (hget : getIP scope store ipArg.ipAddress = .ok old) :
    (∀ m, env.release old.ipAddress old.parentPrefixCidr =
        some { code := .notFound, msg := m } →
      (deleteIP env scope store ipArg).1 = .ok old ∧
      (deleteIP env scope store ipArg).2.2 = storeDelete store old.ipAddress ∧
      ∀ x ∈ (deleteIP env scope store ipArg).2.2, x.ipAddress ≠ old.ipAddress) ∧
    (∀ e : ConnErr, env.release old.ipAddress old.parentPrefixCidr = some e →
      e.code ≠ .notFound →
      (deleteIP env scope store ipArg).1 = .error (.conn e) ∧
      (deleteIP env scope store ipArg).2.2 = store) := by
  constructor
  · intro m hrel
    unfold deleteIP
    rw [hget]
    dsimp only
    rw [hrel]
    simp only [ne_eq, not_true_eq_false, if_false, ite_false]
    exact ⟨trivial, trivial, storeDelete_not_mem store old.ipAddress⟩
  · intro e hrel hne
    unfold deleteIP
    rw [hget]
    dsimp only
    rw [hrel]
    dsimp only
    rw [if_pos hne]
    exact ⟨rfl, rfl⟩

/-- C3 witness: the theorem applied to the concrete record with the
NotFound-reporting release oracle: deletion succeeds and the record is
removed. -/
theorem claim3_witness :
    (deleteIP envRelNF "p1" [exOld] exOld).1 = .ok exOld ∧
    (deleteIP envRelNF "p1" [exOld] exOld).2.2 = storeDelete [exOld] exOld.ipAddress :=
  ⟨((claim3_delete_release_errors envRelNF "p1" [exOld] exOld exOld rfl).1
      "ip gone" rfl).1,
   ((claim3_delete_release_errors envRelNF "p1" [exOld] exOld exOld rfl).1
      "ip gone" rfl).2.1⟩

/-- C9: whatever list of records the store returns for the translated
filter, the admin List result never contains a wire record whose tag map
carries the reserved machine-ownership key. -/
theorem claim9_list_excludes_machine_ips (stored : List IP) :
    ∀ w ∈ adminListLoop stored,
      tagMapValue (newTagMap w.tags) machineIDKey = none := by
  induction stored with
  | nil => intro w hw; simp [adminListLoop] at hw
  | cons ip rest ih =>
    intro w hw
    unfold adminListLoop at hw
    by_cases hm : (tagMapValue (newTagMap ip.tags) machineIDKey).isSome
    · rw [if_pos hm] at hw
      exact ih w hw
    · rw [if_neg hm] at hw
      rcases List.mem_cons.mp hw with h | h
      · subst h
        show tagMapValue (newTagMap ip.tags) machineIDKey = none
        simpa using hm
      · exact ih w h

/-- C9 witness: the theorem applied to a store answer holding one
machine-bound record and one tenant record; the surviving wire record
carries no machine-ownership tag. -/
theorem claim9_witness :
    tagMapValue (newTagMap (convertToProto exOld).tags) machineIDKey = none :=
  claim9_list_excludes_machine_ips [machineIP, exOld] (convertToProto exOld)
    (by decide)

end Theorems

end ApiServer
